import Mathlib

/-!
Shallow embedding of the Project-Profile-Finder route-synthesis engine.

Numeric model: the Rust code computes with `f64`; we model all numeric values
as exact rationals (`ℚ`), i.e. real-number semantics without rounding.  The
only square root in the sources occurs in `distance_to_point`
(src/infrastructure/spatial.rs), where the expression
`(proj[0] - point[0]).powi(2) + (proj[1] - point[1]).powi(2).sqrt()`
applies `.sqrt()` only to the second squared term (method-call precedence),
and `sqrt (dy^2) = |dy|` exactly, so that function stays inside ℚ as well;
the bridging lemma `distance_to_point_real_model` below records the
real-number identity used.  `f64::MAX` sentinels are modelled by `Option ℚ` (`none` standing for
the sentinel), `f64::signum` by `fsignum` (zero behaves like `+0.0`, whose
Rust signum is `1.0`; NaN inputs do not arise in exact arithmetic).
Rust's stable `sort_by` is modelled by `List.insertionSort`, which is stable
for the total preorders used here, so it produces the same list.
-/

/-! ## src/domain/models.rs -/

/-- Translation of `NodeData`: planar position and absolute elevation. -/
structure NodeData where
  x : ℚ
  y : ℚ
  elev : ℚ
deriving DecidableEq, Repr

instance : Inhabited NodeData := ⟨⟨0, 0, 0⟩⟩

/-- Translation of `EdgeData`: stable external id, length, climb, slope. -/
structure EdgeData where
  id : ℕ
  length : ℚ
  climb : ℚ
  slope : ℚ
deriving DecidableEq, Repr

instance : Inhabited EdgeData := ⟨⟨0, 0, 0, 0⟩⟩

/-- One stored edge of the petgraph `StableGraph`: source node index, target
node index (the graph is a directed `StableGraph`), and the edge payload. -/
structure EdgeRec where
  u : ℕ
  v : ℕ
  data : EdgeData
deriving DecidableEq, Repr

instance : Inhabited EdgeRec := ⟨⟨0, 0, default⟩⟩

/-- Translation of `RoadGraph`: nodes and edges are kept in insertion order
and addressed by their dense indices (petgraph node/edge indices); `node_map`
maps external ids to node indices.  The `HashMap` is modelled as an
association list where the most recent insertion is found first. -/
structure RoadGraph where
  nodes : List NodeData
  edges : List EdgeRec
  node_map : List (ℕ × ℕ)
deriving DecidableEq, Repr

/-- Translation of `Profile`: `(cumulative_distance, relative_elevation)`
points. -/
structure Profile where
  points : List (ℚ × ℚ)
deriving DecidableEq, Repr

/-- Key order used by `Profile::new`'s `sort_by` comparator
(`a.0.partial_cmp(&b.0)`). -/
def keyLe (a b : ℚ × ℚ) : Prop := a.1 ≤ b.1

instance : DecidableRel keyLe := fun a b => inferInstanceAs (Decidable (a.1 ≤ b.1))

instance : IsTotal (ℚ × ℚ) keyLe := ⟨fun a b => le_total a.1 b.1⟩

instance : IsTrans (ℚ × ℚ) keyLe := ⟨fun _ _ _ h h' => le_trans h h'⟩

/-- Translation of `Profile::new`: prepend `(0, 0)` unless the list already
starts with it, then stable-sort ascending by distance. -/
def Profile.new (points : List (ℚ × ℚ)) : Profile :=
  let pts :=
    match points with
    | [] => [((0 : ℚ), (0 : ℚ))]
    | p :: rest => if p.1 ≠ 0 ∨ p.2 ≠ 0 then (0, 0) :: p :: rest else p :: rest
  ⟨List.insertionSort keyLe pts⟩

/-- Translation of `Profile::total_length`: distance of the last point, `0`
for an empty profile. -/
def Profile.total_length (p : Profile) : ℚ :=
  (p.points.getLastD (0, 0)).1

/-- Loop body of `Profile::interpolate`: walk the breakpoints keeping the
previous one; on falling through, return the last elevation. -/
def interpGo (s : ℚ) : (ℚ × ℚ) → List (ℚ × ℚ) → ℚ
  | prev, [] => prev.2
  | prev, curr :: rest =>
    if s ≤ curr.1 then prev.2 + (s - prev.1) / (curr.1 - prev.1) * (curr.2 - prev.2)
    else interpGo s curr rest

/-- Translation of `Profile::interpolate`.  The Rust code indexes
`self.points[0]` unconditionally; profiles reaching it are nonempty (both
`Profile::new` and `extract_profile` produce a nonempty list), and the model
returns `0` on the unreachable empty case. -/
def Profile.interpolate (p : Profile) (s : ℚ) : ℚ :=
  if s ≤ 0 then 0
  else
    match p.points with
    | [] => 0
    | first :: rest => interpGo s first rest

/-- Translation of `Query`: center, radius, target profile. -/
structure Query where
  c : ℚ × ℚ
  d : ℚ
  p : Profile
deriving DecidableEq, Repr

/-- Translation of `Route`: start fraction, end fraction, external edge ids. -/
structure Route where
  si : ℚ
  ti : ℚ
  edge_ids : List ℕ
deriving DecidableEq, Repr

/-! ## src/domain/matcher.rs -/

/-- Model of `f64::signum` restricted to exact (non-NaN) values; the single
rational `0` plays the role of `+0.0`, whose Rust signum is `1.0`. -/
def fsignum (x : ℚ) : ℚ := if x < 0 then -1 else 1

/-- Translation of `integral_abs_diff`: closed-form integral of
`|diff_start + t/len * (diff_end - diff_start)|` for `t` over `[0, len]`. -/
def integral_abs_diff (len diff_start diff_end : ℚ) : ℚ :=
  if fsignum diff_start = fsignum diff_end ∨ len = 0 then
    (|diff_start| + |diff_end|) / 2 * len
  else
    let t0 := -diff_start / (diff_end - diff_start) * len
    |diff_start| * t0 / 2 + |diff_end| * (len - t0) / 2

/-- Translation of the merged-breakpoint area loop in `AreaMatcher::score`.
The two Rust copies of the loop differ only in adding `z0` to the actual
curve's interpolated values, so they are shared here with `z0 = 0` for the
first (offset-free) pass.  `f64::MAX` sentinels for exhausted point lists
become `none`; the fuel argument bounds the iteration count (each Rust
iteration advances `i_a + i_t` by at least one, so
`actual.points.length + target.points.length` fuel is never exhausted on the
reachable states). -/
def mergeAreaGo (actual target : Profile) (z0 : ℚ) : ℕ → ℕ → ℕ → ℚ → ℚ
  | 0, _, _, _ => 0
  | fuel + 1, i_a, i_t, s =>
    if i_a < actual.points.length - 1 ∨ i_t < target.points.length - 1 then
      let next_s_a : Option ℚ :=
        if i_a < actual.points.length - 1 then some (actual.points.getD (i_a + 1) (0, 0)).1
        else none
      let next_s_t : Option ℚ :=
        if i_t < target.points.length - 1 then some (target.points.getD (i_t + 1) (0, 0)).1
        else none
      let next_s : ℚ :=
        match next_s_a, next_s_t with
        | some a, some b => min a b
        | some a, none => a
        | none, some b => b
        | none, none => s
      let len := next_s - s
      let contrib :=
        if 0 < len then
          integral_abs_diff len
            (actual.interpolate s + z0 - target.interpolate s)
            (actual.interpolate next_s + z0 - target.interpolate next_s)
        else 0
      let i_a' := if next_s_a = some next_s then i_a + 1 else i_a
      let i_t' := if next_s_t = some next_s then i_t + 1 else i_t
      contrib + mergeAreaGo actual target z0 fuel i_a' i_t' next_s
    else 0

/-- Translation of the `AreaMatcher` scoring strategy (`use_offset` field). -/
structure AreaMatcher where
  use_offset : Bool
deriving DecidableEq, Repr

/-- Translation of `AreaMatcher::score`.  A zero-length target returns `0`
immediately; otherwise the merged-interval area is computed, and with
`use_offset` the mean-difference shift `z0` (sampled at the target's own
breakpoints) is applied to the actual curve and the area recomputed. -/
def AreaMatcher.score (m : AreaMatcher) (actual target : Profile) : ℚ :=
  if target.total_length = 0 then 0
  else
    let fuel := actual.points.length + target.points.length
    let area := mergeAreaGo actual target 0 fuel 0 0 0
    if m.use_offset = false then area
    else
      let samples := target.points
      let sum_diff := samples.foldl (fun acc p => acc + (actual.interpolate p.1 - p.2)) 0
      let z0 := -sum_diff / (samples.length : ℚ)
      mergeAreaGo actual target z0 fuel 0 0 0

/-! ## src/infrastructure/spatial.rs -/

/-- Translation of `SpatialEdge`: a denormalized copy of an edge's endpoint
positions, node/edge indices and payload, stored in the spatial index. -/
structure SpatialEdge where
  p_u : ℚ × ℚ
  p_v : ℚ × ℚ
  u : ℕ
  v : ℕ
  e_idx : ℕ
  length : ℚ
  climb : ℚ
  slope : ℚ
  id : ℕ
deriving DecidableEq, Repr

/-- Translation of `project_point_to_segment`: closest point on the segment
and the clamped parametric fraction. -/
def project_point_to_segment (point : ℚ × ℚ) (se : SpatialEdge) : (ℚ × ℚ) × ℚ :=
  let a := point.1 - se.p_u.1
  let b := point.2 - se.p_u.2
  let c := se.p_v.1 - se.p_u.1
  let d := se.p_v.2 - se.p_u.2
  let dot := a * c + b * d
  let len_sq := c * c + d * d
  let param := if len_sq ≠ 0 then dot / len_sq else -1
  let proj :=
    if param < 0 then se.p_u
    else if param > 1 then se.p_v
    else (se.p_u.1 + param * c, se.p_u.2 + param * d)
  (proj, min (max param 0) 1)

/-- Translation of `distance_to_point`.  The Rust expression is
`(proj[0] - point[0]).powi(2) + (proj[1] - point[1]).powi(2).sqrt()`:
by method-call precedence `.sqrt()` applies only to the second squared term,
and `sqrt (dy^2) = |dy|` exactly (see `sq_add_sqrt_sq_eq`), so the returned
value is `dx^2 + |dy|`, not the Euclidean distance. -/
def distance_to_point (point : ℚ × ℚ) (se : SpatialEdge) : ℚ :=
  let proj := (project_point_to_segment point se).1
  (proj.1 - point.1) ^ 2 + |proj.2 - point.2|

/-- Squared Euclidean point-to-point distance, written from the spec's words
("true Euclidean distance `sqrt(dx²+dy²)` from the query point to the
projected point"): the spec's distance is `Real.sqrt` of this value, kept
separate so the definition stays executable. -/
def euclidDistSq (p q : ℚ × ℚ) : ℚ :=
  (p.1 - q.1) ^ 2 + (p.2 - q.2) ^ 2

/-- Translation of `RTreeObject::envelope` for `SpatialEdge` plus rstar's
`AABB::contains_envelope` test used by `locate_in_envelope`: the edge's
axis-aligned bounding box must be fully contained in the query box. -/
def envelopeWithin (lo hi : ℚ × ℚ) (se : SpatialEdge) : Bool :=
  decide (lo.1 ≤ min se.p_u.1 se.p_v.1) && decide (max se.p_u.1 se.p_v.1 ≤ hi.1) &&
  decide (lo.2 ≤ min se.p_u.2 se.p_v.2) && decide (max se.p_u.2 se.p_v.2 ≤ hi.2)

/-- Translation of `RTree::locate_in_envelope` on the model of the R-tree as
the list of its entries (rstar returns the entries whose envelope is
contained in the query envelope; iteration order is unspecified in rstar and
is modelled as insertion order, which no settled claim depends on). -/
def locate_in_envelope (tree : List SpatialEdge) (lo hi : ℚ × ℚ) : List SpatialEdge :=
  tree.filter (envelopeWithin lo hi)

/-! ## src/application/services.rs -/

/-- Translation of `PartialPath` (the beam-search state). -/
structure PartialPath where
  node : ℕ
  length : ℚ
  cum_area : ℚ
  rel_elev : ℚ
  path : List (ℕ × ℚ)
  first_fraction : ℚ
  first_edge_idx : Option ℕ
deriving DecidableEq, Repr

/-- Translation of `AppData`: the immutable snapshot (graph plus R-tree). -/
structure AppData where
  graph : RoadGraph
  rtree : List SpatialEdge
deriving DecidableEq, Repr

/-- Typed model of one line of the ingestion feed.  JSON parsing itself is an
external collaborator (spec section 6); a record carries the already-typed
required fields, and `other` stands for an unrecognized `type` tag. -/
inductive Record where
  | meta : Record
  | node : ℕ → ℚ → ℚ → ℚ → Record
  | edge : ℕ → ℕ → ℕ → ℚ → ℚ → ℚ → Record
  | other : Record
deriving DecidableEq, Repr

/-- Loop body of `build_graph_from_jsonl`: fold the records over the graph
under construction.  `StableGraph::add_node` appends and returns the dense
index; `add_edge` resolves both endpoints through `node_map` and fails on an
unknown node id; an unrecognized record type fails the whole build. -/
def buildGraphGo : List Record → RoadGraph → Except String RoadGraph
  | [], g => Except.ok g
  | Record.meta :: rs, g => buildGraphGo rs g
  | Record.node nid x y elev :: rs, g =>
      buildGraphGo rs
        { nodes := g.nodes ++ [⟨x, y, elev⟩]
          edges := g.edges
          node_map := (nid, g.nodes.length) :: g.node_map }
  | Record.edge eid u v len climb slope :: rs, g =>
      match g.node_map.lookup u, g.node_map.lookup v with
      | some uIdx, some vIdx =>
          buildGraphGo rs
            { nodes := g.nodes
              edges := g.edges ++ [⟨uIdx, vIdx, ⟨eid, len, climb, slope⟩⟩]
              node_map := g.node_map }
      | _, _ => Except.error "Unknown u or v"
  | Record.other :: _, _ => Except.error "Unknown record type"

/-- Translation of `build_graph_from_jsonl`, starting from an empty graph. -/
def build_graph_from_jsonl (feed : List Record) : Except String RoadGraph :=
  buildGraphGo feed ⟨[], [], []⟩

/-- Translation of `build_spatial_index`: one `SpatialEdge` per graph edge,
in edge-index order.  The Rust code unwraps `edge_endpoints`, which cannot
fail for a graph built by ingestion; out-of-range indices fall back to a
default node in the model. -/
def build_spatial_index (g : RoadGraph) : List SpatialEdge :=
  g.edges.enum.map (fun pr =>
    let nu := g.nodes.getD pr.2.u default
    let nv := g.nodes.getD pr.2.v default
    { p_u := (nu.x, nu.y)
      p_v := (nv.x, nv.y)
      u := pr.2.u
      v := pr.2.v
      e_idx := pr.1
      length := pr.2.data.length
      climb := pr.2.data.climb
      slope := pr.2.data.slope
      id := pr.2.data.id })

/-- Outgoing adjacency of a node in petgraph's directed `StableGraph`:
`(edge index, edge record)` pairs with the given node as stored source, in
reverse insertion order (petgraph's adjacency list iterates newest first). -/
def edgesFrom (g : RoadGraph) (n : ℕ) : List (ℕ × EdgeRec) :=
  (g.edges.enum.filter (fun pr => pr.2.u == n)).reverse

/-- Translation of `Graph::neighbors` on the directed graph: targets of the
outgoing edges only. -/
def neighborsOf (g : RoadGraph) (n : ℕ) : List ℕ :=
  (edgesFrom g n).map (fun pr => pr.2.v)

/-- Translation of `Graph::find_edge` on the directed graph: the first
outgoing edge of `a` (newest first) whose target is `b`. -/
def find_edge (g : RoadGraph) (a b : ℕ) : Option ℕ :=
  ((edgesFrom g a).find? (fun pr => pr.2.v == b)).map (fun pr => pr.1)

/-- Translation of the seeding phase of `find_route`: envelope query around
the center, exact (buggy-metric) distance filter, projection, and one seed
`PartialPath` per surviving candidate, ending at the edge's stored target
node with the remaining `(1 - fraction)` part of the edge consumed. -/
def seedsOf (data : AppData) (q : Query) : List PartialPath :=
  let lo := (q.c.1 - q.d, q.c.2 - q.d)
  let hi := (q.c.1 + q.d, q.c.2 + q.d)
  let candidates := locate_in_envelope data.rtree lo hi
  candidates.filterMap (fun se =>
    if distance_to_point q.c se > q.d then none
    else
      let fraction := (project_point_to_segment q.c se).2
      let partial_len := (1 - fraction) * se.length
      let partial_climb := (1 - fraction) * se.climb
      let area := integral_abs_diff partial_len (0 - q.p.interpolate 0)
        (partial_climb - q.p.interpolate partial_len)
      some
        { node := se.v
          length := partial_len
          cum_area := area
          rel_elev := partial_climb
          path := []
          first_fraction := fraction
          first_edge_idx := some se.e_idx })

/-- Translation of `extract_profile`: rebuild the traversed elevation profile
of a partial path, starting with the consumed part of the first edge. -/
def extract_profile (data : AppData) (path : PartialPath) : Profile :=
  let init : List (ℚ × ℚ) × ℚ × ℚ :=
    match path.first_edge_idx with
    | some first_idx =>
      let first_edge := (data.graph.edges.getD first_idx default).data
      let partial_len := (1 - path.first_fraction) * first_edge.length
      let partial_climb := (1 - path.first_fraction) * first_edge.climb
      ([(0, 0), (partial_len, partial_climb)], partial_len, partial_climb)
    | none => ([(0, 0)], 0, 0)
  let folded := path.path.foldl (fun acc pr =>
    let edge := (data.graph.edges.getD pr.1 default).data
    let s := acc.2.1 + pr.2 * edge.length
    let rel := acc.2.2 + pr.2 * edge.climb
    (acc.1 ++ [(s, rel)], s, rel)) init
  ⟨folded.1⟩

/-- Translation of the best-completion update: keep the lower score, the
earlier completion winning ties (the Rust comparison is strict `<`). -/
def updateBest (best : Option (ℚ × PartialPath)) (sc : ℚ) (path : PartialPath) :
    Option (ℚ × PartialPath) :=
  match best with
  | some (bs, bp) => if sc < bs then some (sc, path) else some (bs, bp)
  | none => some (sc, path)

/-- Translation of the completion check applied to a partial path: if its
length is within `eps` of the target length, score its extracted profile with
the offset-calibrated matcher and fold it into the best completion. -/
def completionCheck (data : AppData) (q : Query) (l eps : ℚ)
    (best : Option (ℚ × PartialPath)) (path : PartialPath) : Option (ℚ × PartialPath) :=
  if |path.length - l| ≤ eps then
    updateBest best ((AreaMatcher.mk true).score (extract_profile data path) q.p) path
  else best

/-- Translation of the extension step: for every neighbor of the current node
(outgoing edges of the directed graph), look the connecting edge up again
with `find_edge`, drop the child if it would exceed `l + 2·eps`, and
otherwise append the edge at full fraction. -/
def extendPath (data : AppData) (q : Query) (l eps : ℚ) (path : PartialPath) :
    List PartialPath :=
  (neighborsOf data.graph path.node).filterMap (fun n_e =>
    match find_edge data.graph path.node n_e with
    | none => none
    | some e_idx =>
      let edge := (data.graph.edges.getD e_idx default).data
      let new_len := path.length + edge.length
      if new_len > l + eps * 2 then none
      else
        let new_rel := path.rel_elev + edge.climb
        let area_add := integral_abs_diff edge.length
          (path.rel_elev - q.p.interpolate path.length)
          (new_rel - q.p.interpolate new_len)
        some
          { node := n_e
            length := new_len
            cum_area := path.cum_area + area_add
            rel_elev := new_rel
            path := path.path ++ [(e_idx, 1)]
            first_fraction := path.first_fraction
            first_edge_idx := path.first_edge_idx })

/-- Cheap extrapolated estimate used for beam ranking: `cum_area / length * l`
for paths of positive length, `+∞` (here `⊤`) otherwise.  `is_finite()` of
the accumulated area always holds in exact arithmetic. -/
def estimateOf (l : ℚ) (p : PartialPath) : WithTop ℚ :=
  if 0 < p.length then ((p.cum_area / p.length * l : ℚ) : WithTop ℚ) else ⊤

/-- Order on partial paths induced by the estimate; `⊤ ≤ ⊤` holds, matching
`partial_cmp(...).unwrap_or(Equal)` on two infinite estimates. -/
def estLe (l : ℚ) (a b : PartialPath) : Prop :=
  estimateOf l a ≤ estimateOf l b

instance (l : ℚ) : DecidableRel (estLe l) := fun a b =>
  inferInstanceAs (Decidable (estimateOf l a ≤ estimateOf l b))

instance (l : ℚ) : IsTotal PartialPath (estLe l) :=
  ⟨fun a b => le_total (estimateOf l a) (estimateOf l b)⟩

instance (l : ℚ) : IsTrans PartialPath (estLe l) := ⟨fun _ _ _ h h' => le_trans h h'⟩

/-- Translation of the `beam_width` constant. -/
def beam_width : ℕ := 50

/-- One iteration of the beam loop: drop paths beyond `l + eps`, fold the
completion check over the beam, emit all extensions, then rank by the
estimate with the stable sort and keep the best `beam_width` children. -/
def stepBeam (data : AppData) (q : Query) (l eps : ℚ)
    (st : List PartialPath × Option (ℚ × PartialPath)) :
    List PartialPath × Option (ℚ × PartialPath) :=
  if st.1.isEmpty then st
  else
    let folded := st.1.foldl (fun acc path =>
      if path.length > l + eps then acc
      else
        (acc.1 ++ extendPath data q l eps path, completionCheck data q l eps acc.2 path))
      ([], st.2)
    ((folded.1.insertionSort (estLe l)).take beam_width, folded.2)

/-- The bounded iteration of `stepBeam`; an empty beam makes `stepBeam` the
identity, which models the early `break`. -/
def beamLoop (data : AppData) (q : Query) (l eps : ℚ) :
    ℕ → List PartialPath × Option (ℚ × PartialPath) →
    List PartialPath × Option (ℚ × PartialPath)
  | 0, st => st
  | n + 1, st => beamLoop data q l eps n (stepBeam data q l eps st)

/-- Translation of the step cap `(2.0 * l / 50.0) as usize`: the `f64`-to-
`usize` cast truncates toward zero and saturates at `0` for negative values,
which for the values arising here is `⌊2·l/50⌋` clamped to ℕ. -/
def maxSteps (l : ℚ) : ℕ :=
  (⌊2 * l / 50⌋).toNat

/-- Translation of the result reconstruction from the best completion. -/
def routeOf (data : AppData) (bp : PartialPath) : Route :=
  let firstIds : List ℕ :=
    match bp.first_edge_idx with
    | some i => [(data.graph.edges.getD i default).data.id]
    | none => []
  let restIds := bp.path.map (fun pr => (data.graph.edges.getD pr.1 default).data.id)
  let ti :=
    match bp.path.getLast? with
    | some last => last.2
    | none => 1 - bp.first_fraction
  ⟨bp.first_fraction, ti, firstIds ++ restIds⟩

/-- Translation of `find_route`.  The `Result` wrapper of the Rust signature
never carries an error on the modelled paths (its `?` operators concern file
I/O elsewhere); the interesting outcome is `Option Route`. -/
def find_route (data : AppData) (q : Query) : Option Route :=
  if q.p.total_length = 0 then none
  else
    let l := q.p.total_length
    let eps := max 5 (0.05 * l)
    let start_partials := seedsOf data q
    if start_partials.isEmpty then none
    else
      let final := beamLoop data q l eps (maxSteps l) (start_partials, none)
      let best := final.1.foldl (completionCheck data q l eps) final.2
      match best with
      | some pr => some (routeOf data pr.2)
      | none => none

/-! ## Concrete instances used by counterexamples and witnesses -/

/-- Shift every elevation value of a profile by a constant `k` (the operation
named in the offset-invariance claim). -/
def shiftProfile (p : Profile) (k : ℚ) : Profile :=
  ⟨p.points.map (fun pt => (pt.1, pt.2 + k))⟩

/-- Flat two-point profile used by the offset-invariance counterexample. -/
def profileFlat10 : Profile := ⟨[(0, 0), (10, 0)]⟩

/-- Per-record non-negativity of the `length_m` field of an ingestion feed
record (trivially true for non-edge records). -/
def recLenNonneg : Record → Prop
  | Record.edge _ _ _ len _ _ => 0 ≤ len
  | _ => True

instance : DecidablePred recLenNonneg := fun r => by
  unfold recLenNonneg
  cases r <;> infer_instance

/-- Spatial edge used by the distance-formula counterexample: the segment
from `(3, 4)` to `(3, 5)`. -/
def seC1 : SpatialEdge :=
  { p_u := (3, 4), p_v := (3, 5), u := 0, v := 1, e_idx := 0,
    length := 1, climb := 0, slope := 0, id := 9 }

/-- Two-node, one-edge directed graph (edge stored as `0 → 1`). -/
def graphC2 : RoadGraph :=
  { nodes := [⟨0, 0, 0⟩, ⟨10, 0, 0⟩]
    edges := [⟨0, 1, ⟨5, 10, 2, 0⟩⟩]
    node_map := [(1, 1), (0, 0)] }

/-- Snapshot for the traversal-direction claims. -/
def dataC2 : AppData := ⟨graphC2, build_spatial_index graphC2⟩

/-- Query used when exercising `extendPath` (only its target profile's
interpolation enters the extension step). -/
def qC2 : Query := ⟨(0, 0), 5, Profile.new [(0, 0), (100, 0)]⟩

/-- Partial path standing at the stored target node `1` of the only edge. -/
def pathAtV : PartialPath :=
  { node := 1, length := 10, cum_area := 0, rel_elev := 2, path := [],
    first_fraction := 0, first_edge_idx := some 0 }

/-- Partial path standing at the stored source node `0` of the only edge. -/
def pathAtU : PartialPath :=
  { node := 0, length := 0, cum_area := 0, rel_elev := 0, path := [],
    first_fraction := 0, first_edge_idx := none }

/-- The unique extension emitted from `pathAtU` in `dataC2`. -/
def childC2 : PartialPath :=
  { node := 1, length := 10, cum_area := 10, rel_elev := 2, path := [(0, 1)],
    first_fraction := 0, first_edge_idx := none }

/-- The 3-node, 2-edge line graph of the scenario claim: edge id 1 of length
50 from node 0 to node 1, edge id 2 of length 60 from node 1 to node 2, all
flat, laid out along the x-axis. -/
def graphC3 : RoadGraph :=
  { nodes := [⟨0, 0, 0⟩, ⟨50, 0, 0⟩, ⟨110, 0, 0⟩]
    edges := [⟨0, 1, ⟨1, 50, 0, 0⟩⟩, ⟨1, 2, ⟨2, 60, 0, 0⟩⟩]
    node_map := [(2, 2), (1, 1), (0, 0)] }

/-- Snapshot for the scenario claim. -/
def dataC3 : AppData := ⟨graphC3, build_spatial_index graphC3⟩

/-- Scenario query with the minimum radius 5 allowed by the claim. -/
def qC3r5 : Query := ⟨(0, 0), 5, Profile.new [(0, 0), (100, 0)]⟩

/-- Scenario query with a large radius 200. -/
def qC3r200 : Query := ⟨(0, 0), 200, Profile.new [(0, 0), (100, 0)]⟩

/-- Variant of the scenario graph with edge B of length 50 instead of 60
(node 2 moved to `(100, 0)` accordingly). -/
def graphC3v : RoadGraph :=
  { nodes := [⟨0, 0, 0⟩, ⟨50, 0, 0⟩, ⟨100, 0, 0⟩]
    edges := [⟨0, 1, ⟨1, 50, 0, 0⟩⟩, ⟨1, 2, ⟨2, 50, 0, 0⟩⟩]
    node_map := [(2, 2), (1, 1), (0, 0)] }

/-- Snapshot for the adjusted scenario. -/
def dataC3v : AppData := ⟨graphC3v, build_spatial_index graphC3v⟩

/-- Adjusted scenario query: radius 60, so edge A's envelope is contained in
the search box of the index's containment-based envelope query. -/
def qC3v : Query := ⟨(0, 0), 60, Profile.new [(0, 0), (100, 0)]⟩

/-- Ingestion feed whose edge record carries a negative `length_m`. -/
def feedC7 : List Record :=
  [Record.node 0 0 0 0, Record.node 1 3 0 0, Record.edge 7 0 1 (-1) 0 0]

/-- The graph that `build_graph_from_jsonl` produces from `feedC7`. -/
def gC7 : RoadGraph :=
  { nodes := [⟨0, 0, 0⟩, ⟨3, 0, 0⟩]
    edges := [⟨0, 1, ⟨7, -1, 0, 0⟩⟩]
    node_map := [(1, 1), (0, 0)] }

/-- Well-formed ingestion feed (non-negative edge length) for the witness. -/
def feedC7ok : List Record :=
  [Record.node 0 0 0 0, Record.node 1 3 0 0, Record.edge 7 0 1 4 0 0]

/-- The graph that `build_graph_from_jsonl` produces from `feedC7ok`. -/
def gC7ok : RoadGraph :=
  { nodes := [⟨0, 0, 0⟩, ⟨3, 0, 0⟩]
    edges := [⟨0, 1, ⟨7, 4, 0, 0⟩⟩]
    node_map := [(1, 1), (0, 0)] }

/-- Query with a zero-length target profile. -/
def qZeroW : Query := ⟨(0, 0), 5, Profile.new []⟩

/-- Query whose center is far from every edge of `dataC2`. -/
def qFarW : Query := ⟨(1000, 0), 1, Profile.new [(0, 0), (10, 0)]⟩


/-! ## Theorems

The `Rat` arithmetic operations of the library are `@[irreducible]`; they are
made semireducible locally so that concrete runs of the embedded functions can
be settled by `decide`. -/

section

attribute [local semireducible] Rat.add Rat.mul Rat.inv Rat.sub Rat.ofScientific

/-- Bridging lemma for the numeric model of `distance_to_point`: over the
reals, the literal Rust expression `dx^2 + sqrt (dy^2)` (with `sqrt` applied
to the second term only, as the source's method-call precedence dictates)
equals the rational value `dx^2 + |dy|` computed by the embedded definition. -/
theorem distance_to_point_real_model (point : ℚ × ℚ) (se : SpatialEdge) :
    ((distance_to_point point se : ℚ) : ℝ)
      = (((project_point_to_segment point se).1.1 - point.1 : ℚ) : ℝ) ^ 2
        + Real.sqrt ((((project_point_to_segment point se).1.2 - point.2 : ℚ) : ℝ) ^ 2) := by
  rw [Real.sqrt_sq_eq_abs]
  simp only [distance_to_point]
  push_cast
  ring

/-- C1: the claim is refuted by the code — the spec is the clear intent and
the code a slip (a misplaced parenthesis makes `.sqrt()` apply to the `dy²`
term only).  For the spatial edge from `(3, 4)` to `(3, 5)` and query point
`(0, 0)`, the projected point is `(3, 4)`; `distance_to_point`, the value
used for radius filtering in `find_route`, returns `3² + |4| = 13`, while the
true Euclidean distance `sqrt(dx² + dy²)` to the projected point is
`sqrt 25 = 5 ≠ 13`. -/
theorem distance_to_point_not_euclidean_cex :
    (project_point_to_segment (0, 0) seC1).1 = (3, 4) ∧
    distance_to_point (0, 0) seC1 = 13 ∧
    Real.sqrt ((euclidDistSq (0, 0) (3, 4) : ℚ) : ℝ) = 5 ∧
    (13 : ℚ) ≠ 5 := by
  refine ⟨by decide, by decide, ?_, by decide⟩
  have h : ((euclidDistSq (0, 0) (3, 4) : ℚ) : ℝ) = 25 := by
    norm_num [euclidDistSq]
  rw [h, show (25 : ℝ) = 5 ^ 2 by norm_num, Real.sqrt_sq]
  norm_num

/-- C8: `integral_abs_diff` computes the closed-form integral of the absolute
linear difference: a constant difference `a` over a non-negative interval
gives `|a| · len`, and the sign-crossing instance `integral_abs_diff 10 2 (-2)`
equals the two triangle areas `5 + 5 = 10`. -/
theorem integral_abs_diff_spec :
    (∀ len a : ℚ, 0 ≤ len → integral_abs_diff len a a = |a| * len) ∧
    integral_abs_diff 10 2 (-2) = 10 := by
  constructor
  · intro len a _
    unfold integral_abs_diff
    rw [if_pos (Or.inl rfl)]
    ring
  · decide

/-- Witness for C8: the constant-difference law applied at `len = 3`,
`a = -2`. -/
theorem integral_abs_diff_spec_witness :
    (0 : ℚ) ≤ 3 ∧ integral_abs_diff 3 (-2) (-2) = |(-2 : ℚ)| * 3 :=
  ⟨by norm_num, integral_abs_diff_spec.1 3 (-2) (by norm_num)⟩

/-- C10: for every actual profile and both offset settings,
`AreaMatcher::score` returns exactly `0` whenever the target profile's
`total_length` is `0`. -/
theorem score_zero_length_target (use_offset : Bool) (actual target : Profile)
    (h : target.total_length = 0) :
    (AreaMatcher.mk use_offset).score actual target = 0 := by
  unfold AreaMatcher.score
  rw [if_pos h]

/-- Witness for C10: a nonempty actual profile scored against the zero-length
target `[(0, 0)]` gives `0`. -/
theorem score_zero_length_target_witness :
    (Profile.mk [(0, 0)]).total_length = 0 ∧
    (AreaMatcher.mk true).score (Profile.mk [(0, 5), (3, 7)]) (Profile.mk [(0, 0)]) = 0 :=
  ⟨by decide, score_zero_length_target true (Profile.mk [(0, 5), (3, 7)]) (Profile.mk [(0, 0)])
    (by decide)⟩

/-- C4 counterexample: shifting the flat profile `[(0, 0), (10, 0)]` by
`k = 2` changes the offset-calibrated score against the unshifted profile
from `0` to `5`.  The root cause: `interpolate` pins every `s ≤ 0` to
elevation `0`, so the shifted profile is not a uniform vertical translation
of the original at the left endpoint, and the mean-based `z0` cannot cancel
the shift. -/
theorem score_shift_invariance_cex :
    (AreaMatcher.mk true).score (shiftProfile profileFlat10 2) profileFlat10 = 5 ∧
    (AreaMatcher.mk true).score profileFlat10 profileFlat10 = 0 ∧
    (AreaMatcher.mk true).score (shiftProfile profileFlat10 2) profileFlat10
      ≠ (AreaMatcher.mk true).score profileFlat10 profileFlat10 :=
  ⟨by decide, by decide, by decide⟩

/-- C4 (amended): the offset-calibrated score is invariant under the vertical
shift of the actual profile only for the zero shift, `k = 0`; for `k ≠ 0` the
invariance fails (see the counterexample). -/
theorem score_shift_zero_invariant (P Q : Profile) :
    (AreaMatcher.mk true).score (shiftProfile P 0) Q = (AreaMatcher.mk true).score P Q := by
  have hmap : P.points.map (fun pt => (pt.1, pt.2 + 0)) = P.points := by
    induction P.points with
    | nil => rfl
    | cons a t ih => simp [ih]
  have h : shiftProfile P 0 = P := by
    cases P with
    | mk pts =>
      unfold shiftProfile
      exact congrArg Profile.mk hmap
  rw [h]

/-- C5 counterexample: for target length `l = 30` the step cap used by
`find_route` is `maxSteps 30 = ⌊60/50⌋ = 1`, while `⌈2·30/50⌉ = 2`: the
`as usize` cast truncates toward zero, it does not round up. -/
theorem maxSteps_not_ceil_cex :
    maxSteps 30 = 1 ∧ ⌈2 * (30 : ℚ) / 50⌉ = 2 ∧ maxSteps 30 ≠ 2 := by
  refine ⟨by decide, ?_, by decide⟩
  rw [Int.ceil_eq_iff]
  constructor
  · norm_num
  · norm_num

/-- C5 (amended): for every positive target length `l`, the beam-search
iteration cap `maxSteps l` is the truncation `⌊2·l/50⌋`, characterized by
`maxSteps l ≤ 2·l/50 < maxSteps l + 1` (so it agrees with the claimed
`⌈2·l/50⌉` only when `2·l` is a multiple of `50`). -/
theorem maxSteps_is_floor (l : ℚ) (h : 0 < l) :
    (maxSteps l : ℚ) ≤ 2 * l / 50 ∧ 2 * l / 50 < (maxSteps l : ℚ) + 1 := by
  have h0 : (0 : ℚ) ≤ 2 * l / 50 := by positivity
  have hfl : (0 : ℤ) ≤ ⌊2 * l / 50⌋ := Int.floor_nonneg.mpr h0
  have hc : ((maxSteps l : ℕ) : ℚ) = ((⌊2 * l / 50⌋ : ℤ) : ℚ) := by
    unfold maxSteps
    norm_cast
    exact Int.toNat_of_nonneg hfl
  constructor
  · rw [hc]
    exact Int.floor_le (2 * l / 50)
  · rw [hc]
    exact Int.lt_floor_add_one (2 * l / 50)

/-- Witness for C5 (amended), at `l = 30`. -/
theorem maxSteps_is_floor_witness :
    (0 : ℚ) < 30 ∧
    ((maxSteps 30 : ℚ) ≤ 2 * 30 / 50 ∧ 2 * 30 / 50 < (maxSteps 30 : ℚ) + 1) :=
  ⟨by norm_num, maxSteps_is_floor 30 (by norm_num)⟩

/-- C2 counterexample: in `dataC2` the only edge is stored with endpoints
`(u, v) = (0, 1)`; a partial path standing at node `1` receives no extensions
at all — in particular the edge is not eligible from `v` toward `u` — while
from node `0` the same edge is eligible.  Traversal follows the stored
direction of the directed `StableGraph`, not an undirected exploration. -/
theorem directed_traversal_cex :
    extendPath dataC2 qC2 100 5 pathAtV = [] ∧
    extendPath dataC2 qC2 100 5 pathAtU = [childC2] ∧
    childC2.node = 1 :=
  ⟨by decide, by decide, by decide⟩

/-- C2 (amended): every child emitted by the extension step of `find_route`
traverses an edge drawn from the out-adjacency of the path's current node:
the stored source `u` of that edge is the current node, and the child moves
to its stored target `v`.  The reverse direction (from a stored target back
toward the source) is never offered. -/
theorem extendPath_follows_stored_direction (data : AppData) (q : Query) (l eps : ℚ)
    (path child : PartialPath) (h : child ∈ extendPath data q l eps path) :
    ∃ pr ∈ edgesFrom data.graph path.node, pr.2.u = path.node ∧ child.node = pr.2.v := by
  rcases List.mem_filterMap.mp h with ⟨n_e, _, hf⟩
  cases hfe : find_edge data.graph path.node n_e with
  | none => rw [hfe] at hf; simp at hf
  | some e_idx =>
    rw [hfe] at hf
    dsimp only at hf
    split at hf
    · cases hf
    · cases hf
      rcases Option.map_eq_some'.mp hfe with ⟨pr, hfind, hpr1⟩
      have hmem : pr ∈ edgesFrom data.graph path.node := List.mem_of_find?_eq_some hfind
      have hu : pr.2.u = path.node := by
        have h1 := List.mem_reverse.mp hmem
        have h2 := (List.mem_filter.mp h1).2
        exact eq_of_beq h2
      have hv : pr.2.v = n_e := by
        have h3 := List.find?_some hfind
        exact eq_of_beq h3
      exact ⟨pr, hmem, hu, hv.symm⟩

/-- Witness for C2 (amended): the single child emitted from node `0` in
`dataC2` traverses the stored edge `0 → 1`. -/
theorem extendPath_follows_stored_direction_witness :
    ∃ pr ∈ edgesFrom dataC2.graph pathAtU.node,
      pr.2.u = pathAtU.node ∧ childC2.node = pr.2.v :=
  extendPath_follows_stored_direction dataC2 qC2 100 5 pathAtU childC2 (by decide)

/-- C3 counterexample: on the exact 3-node, 2-edge line graph of the claim
(edge A of length 50 with id 1, edge B of length 60 with id 2, both flat,
query centered at edge A's start, target profile `[(0, 0), (100, 0)]`, so
`eps = 5`), `find_route` returns no route — with the claim's minimum radius 5
and with radius 200 alike.  The reachable traversals have lengths 50 (edge A
from its start) and 110 (A then B), both outside the completion window
`[95, 105]`, so no completion candidate ever exists. -/
theorem line_graph_scenario_cex :
    find_route dataC3 qC3r5 = none ∧ find_route dataC3 qC3r200 = none :=
  ⟨by decide, by decide⟩

/-- C3 (amended): with edge B of length 50 instead of 60 — so the full line
A + B has length 100, inside the tolerance window — and radius 60 (large
enough that edge A's envelope is contained in the query box of the index's
containment-based envelope query), `find_route` returns exactly the claimed
route: `edge_ids = [1, 2]`, `ti = 1`, and `si = 0`. -/
theorem line_graph_adjusted_scenario :
    find_route dataC3v qC3v = some ⟨0, 1, [1, 2]⟩ := by decide

/-- C6 counterexample: `Profile::new` applied to `[(0, 1)]` prepends `(0, 0)`
and keeps both points at distance `0`: the result begins with `(0, 0)` but is
not strictly ascending in distance — it contains two points with equal
distance, since construction never removes duplicates. -/
theorem profile_new_not_strict_cex :
    (Profile.new [(0, 1)]).points = [(0, 0), (0, 1)] ∧
    ¬ List.Chain' (fun a b : ℚ × ℚ => a.1 < b.1) (Profile.new [(0, 1)]).points := by
  have h : (Profile.new [(0, 1)]).points = [(0, 0), (0, 1)] := by decide
  refine ⟨h, ?_⟩
  rw [h]
  intro hc
  rcases hc with _ | ⟨hlt, _⟩
  exact absurd hlt (lt_irrefl (0 : ℚ))

/-- C6 (amended): when the input's distances are all strictly positive and
pairwise distinct, `Profile::new` returns a profile whose point sequence
begins with `(0, 0)` and is strictly ascending in distance.  (Without those
restrictions the claim fails: duplicate distances survive sorting, and a
non-positive distance can sort before the prepended `(0, 0)`.) -/
theorem profile_new_strict_of_distinct_pos (pts : List (ℚ × ℚ))
    (h1 : ∀ p ∈ pts, 0 < p.1)
    (h2 : pts.Pairwise (fun a b => a.1 ≠ b.1)) :
    (Profile.new pts).points.head? = some (0, 0) ∧
    List.Chain' (fun a b : ℚ × ℚ => a.1 < b.1) (Profile.new pts).points := by
  have hrep : (Profile.new pts).points = List.insertionSort keyLe ((0, 0) :: pts) := by
    unfold Profile.new
    cases pts with
    | nil => rfl
    | cons p rest =>
      have hp : p.1 ≠ 0 := ne_of_gt (h1 p (List.mem_cons_self p rest))
      simp [hp]
  have hperm : (List.insertionSort keyLe ((0, 0) :: pts)).Perm ((0, 0) :: pts) :=
    List.perm_insertionSort keyLe ((0, 0) :: pts)
  have hsorted : (List.insertionSort keyLe ((0, 0) :: pts)).Pairwise keyLe :=
    List.sorted_insertionSort keyLe ((0, 0) :: pts)
  have hne0 : List.Pairwise (fun a b : ℚ × ℚ => a.1 ≠ b.1) ((0, 0) :: pts) := by
    refine List.Pairwise.cons ?_ h2
    intro b hb
    exact ne_of_lt (h1 b hb)
  have hneS : (List.insertionSort keyLe ((0, 0) :: pts)).Pairwise
      (fun a b : ℚ × ℚ => a.1 ≠ b.1) :=
    (List.Perm.pairwise_iff (fun h => Ne.symm h) hperm).mpr hne0
  have hlt : (List.insertionSort keyLe ((0, 0) :: pts)).Pairwise
      (fun a b : ℚ × ℚ => a.1 < b.1) :=
    (hsorted.and hneS).imp (fun hab => lt_of_le_of_ne hab.1 hab.2)
  have hmem : ((0 : ℚ), (0 : ℚ)) ∈ List.insertionSort keyLe ((0, 0) :: pts) :=
    hperm.mem_iff.mpr (List.mem_cons_self _ _)
  obtain ⟨h0, t, hSeq⟩ :
      ∃ h0 t, List.insertionSort keyLe ((0, 0) :: pts) = h0 :: t := by
    cases hS : List.insertionSort keyLe ((0, 0) :: pts) with
    | nil => rw [hS] at hmem; cases hmem
    | cons a t => exact ⟨a, t, rfl⟩
  have hhead : h0 = (0, 0) := by
    have hh : h0 ∈ (((0 : ℚ), (0 : ℚ)) :: pts) :=
      hperm.mem_iff.mp (hSeq ▸ List.mem_cons_self h0 t)
    rcases List.mem_cons.mp hh with he | hin
    · exact he
    · exfalso
      have hpos : 0 < h0.1 := h1 h0 hin
      rw [hSeq] at hmem
      rcases List.mem_cons.mp hmem with he0 | ht0
      · rw [← he0] at hpos
        exact absurd hpos (lt_irrefl 0)
      · rw [hSeq] at hlt
        have := (List.pairwise_cons.mp hlt).1 (0, 0) ht0
        exact absurd (lt_trans hpos this) (lt_irrefl 0)
  constructor
  · rw [hrep, hSeq, hhead]
    rfl
  · rw [hrep, hSeq, hhead]
    have := hlt
    rw [hSeq, hhead] at this
    exact this.chain'

/-- Witness for C6 (amended): the input `[(2, 5), (1, 3)]` has positive,
pairwise-distinct distances; `Profile::new` yields
`[(0, 0), (1, 3), (2, 5)]`, which begins with `(0, 0)` and is strictly
ascending. -/
theorem profile_new_strict_of_distinct_pos_witness :
    (∀ p ∈ [((2 : ℚ), (5 : ℚ)), (1, 3)], 0 < p.1) ∧
    List.Pairwise (fun a b : ℚ × ℚ => a.1 ≠ b.1) [((2 : ℚ), (5 : ℚ)), (1, 3)] ∧
    ((Profile.new [((2 : ℚ), (5 : ℚ)), (1, 3)]).points.head? = some (0, 0) ∧
      List.Chain' (fun a b : ℚ × ℚ => a.1 < b.1)
        (Profile.new [((2 : ℚ), (5 : ℚ)), (1, 3)]).points) :=
  ⟨by decide, by decide,
    profile_new_strict_of_distinct_pos [((2 : ℚ), (5 : ℚ)), (1, 3)] (by decide) (by decide)⟩

/-- C7 counterexample: ingestion accepts an edge record whose `length_m` is
`-1` and succeeds, producing a graph whose only edge has negative length —
`build_graph_from_jsonl` performs no non-negativity validation. -/
theorem ingestion_negative_length_cex :
    build_graph_from_jsonl feedC7 = Except.ok gC7 ∧
    (gC7.edges.getD 0 default).data.length < 0 :=
  ⟨rfl, by decide⟩

/-- Helper for C7 (amended): non-negativity of edge lengths is preserved by
the ingestion fold whenever the remaining feed's edge records carry
non-negative `length_m` fields. -/
theorem buildGraphGo_nonneg (feed : List Record) :
    ∀ g0 g : RoadGraph, (∀ r ∈ feed, recLenNonneg r) →
      (∀ er ∈ g0.edges, 0 ≤ er.data.length) →
      buildGraphGo feed g0 = Except.ok g →
      ∀ er ∈ g.edges, 0 ≤ er.data.length := by
  induction feed with
  | nil =>
    intro g0 g _ h0 hok
    cases hok
    exact h0
  | cons r rs ih =>
    intro g0 g hfeed h0 hok
    cases r with
    | meta =>
      unfold buildGraphGo at hok
      exact ih g0 g (fun r hr => hfeed r (List.mem_cons_of_mem _ hr)) h0 hok
    | node nid x y elev =>
      unfold buildGraphGo at hok
      refine ih _ g (fun r hr => hfeed r (List.mem_cons_of_mem _ hr)) ?_ hok
      exact h0
    | edge eid u v len climb slope =>
      have hlen : (0 : ℚ) ≤ len := hfeed _ (List.mem_cons_self _ _)
      unfold buildGraphGo at hok
      cases hu : g0.node_map.lookup u with
      | none =>
        rw [hu] at hok
        cases hok
      | some uIdx =>
        cases hv : g0.node_map.lookup v with
        | none =>
          rw [hu, hv] at hok
          cases hok
        | some vIdx =>
          rw [hu, hv] at hok
          refine ih _ g (fun r hr => hfeed r (List.mem_cons_of_mem _ hr)) ?_ hok
          intro er her
          rcases List.mem_append.mp her with hold | hnew
          · exact h0 er hold
          · rcases List.mem_singleton.mp hnew with rfl
            exact hlen
    | other =>
      unfold buildGraphGo at hok
      cases hok

/-- C7 (amended): edge lengths are copied verbatim from the feed, so the
non-negativity invariant holds exactly when the feed's edge records all carry
`length_m ≥ 0`: for every such feed on which `build_graph_from_jsonl`
succeeds, every edge of the resulting graph has length `≥ 0`.  (Ingestion
itself performs no validation; see the counterexample.) -/
theorem build_graph_nonneg_of_feed_nonneg (feed : List Record) (g : RoadGraph)
    (hfeed : ∀ r ∈ feed, recLenNonneg r)
    (hok : build_graph_from_jsonl feed = Except.ok g) :
    ∀ er ∈ g.edges, 0 ≤ er.data.length :=
  buildGraphGo_nonneg feed ⟨[], [], []⟩ g hfeed (fun er her => absurd her (List.not_mem_nil er))
    hok

/-- Witness for C7 (amended): a feed whose edge record has `length_m = 4`
builds successfully and every edge in the result has non-negative length. -/
theorem build_graph_nonneg_of_feed_nonneg_witness :
    (∀ r ∈ feedC7ok, recLenNonneg r) ∧
    build_graph_from_jsonl feedC7ok = Except.ok gC7ok ∧
    (∀ er ∈ gC7ok.edges, 0 ≤ er.data.length) :=
  ⟨by decide, rfl, build_graph_nonneg_of_feed_nonneg feedC7ok gC7ok (by decide) rfl⟩

/-- Helper for C9: when every entry of the spatial index is farther than the
radius under the code's distance filter, the seeding phase yields no partial
paths. -/
theorem seedsOf_eq_nil_of_far (data : AppData) (q : Query)
    (h : ∀ se ∈ data.rtree, distance_to_point q.c se > q.d) :
    seedsOf data q = [] := by
  unfold seedsOf locate_in_envelope
  refine List.filterMap_eq_nil_iff.mpr ?_
  intro se hse
  have hmem : se ∈ data.rtree := (List.mem_filter.mp hse).1
  rw [if_pos (h se hmem)]

/-- C9: `find_route` returns an absent result (`none`), not an error, in both
degenerate cases — whenever the target profile's `total_length` is `0`, and
whenever no spatial edge entry lies within the radius-`d` distance filter
around the query center, so that no seed partial path survives. -/
theorem find_route_absent_on_degenerate (data : AppData) (q : Query) :
    (q.p.total_length = 0 → find_route data q = none) ∧
    ((∀ se ∈ data.rtree, distance_to_point q.c se > q.d) → find_route data q = none) := by
  constructor
  · intro h
    unfold find_route
    rw [if_pos h]
  · intro h
    unfold find_route
    by_cases h0 : q.p.total_length = 0
    · rw [if_pos h0]
    · rw [if_neg h0]
      have hs : seedsOf data q = [] := seedsOf_eq_nil_of_far data q h
      simp [hs]

/-- Witness for C9: the zero-length-target query `qZeroW` and the
out-of-range query `qFarW` on `dataC2` both produce `none`. -/
theorem find_route_absent_on_degenerate_witness :
    (qZeroW.p.total_length = 0 ∧ find_route dataC2 qZeroW = none) ∧
    ((∀ se ∈ dataC2.rtree, distance_to_point qFarW.c se > qFarW.d) ∧
      find_route dataC2 qFarW = none) :=
  ⟨⟨by decide, (find_route_absent_on_degenerate dataC2 qZeroW).1 (by decide)⟩,
    ⟨by decide, (find_route_absent_on_degenerate dataC2 qFarW).2 (by decide)⟩⟩

end
